import Mathlib

set_option maxRecDepth 100000
set_option maxHeartbeats 1600000

/-!
Shallow embedding of the binary clock core (kengggg/binaryclock).

The C sources embedded here:
* `binary_clock_to_binary`, `binary_clock_to_decimal`,
  `binary_clock_state_from_time`, `binary_clock_get_current_time`,
  `binary_clock_get_current_state` — the core conversion / decomposition
  functions from the library implementation file.
* `binary_clock_display_register`, `binary_clock_display_unregister`,
  `binary_clock_display_update_all_with_state` — the display registry
  from `src/binary_clock_display.c`.

Modelling conventions:
* C `uint8_t` values are `Nat` (the C code never overflows a `uint8_t`
  on the paths modelled: masked values are `< 64`, digits are `< 10`).
* `time_t` is `Int`; the C library's `time(NULL)` result is passed in as
  an explicit parameter `now` (`-1` models failure, as in C).
* Pointer parameters become `Option` (with `none` for `NULL`).
* The fixed array `bool bits[6]` is `Fin 6 → Bool`.
* The registry's slot array is a `List display_entry_t` (length 16 in
  the initial state), and the C `for` scans over it are structural
  recursions that stop at the first hit, exactly as the C loops
  `return` early.
* Function pointers `binary_clock_display_fn_t` are modelled as `Nat`
  codes wrapped in `Option` (`none` = `NULL`); `void* context` is
  `Option Nat`.  Dispatch produces a trace of call events instead of
  performing calls.
-/

/-- C enum `binary_clock_error_t`. -/
inductive binary_clock_error_t where
  | SUCCESS
  | ERROR_INVALID_TIME
  | ERROR_INVALID_BIT_COUNT
  | ERROR_NULL_POINTER
  | ERROR_SYSTEM_TIME
  deriving DecidableEq, Repr

/-- C struct `binary_value_t`: bit_count, bits[6] (MSB first), decimal_value. -/
structure binary_value_t where
  bit_count : Nat
  bits : Fin 6 → Bool
  decimal_value : Nat
  deriving DecidableEq

/-- C struct `time_components_t`. -/
structure time_components_t where
  hours : Nat
  minutes : Nat
  seconds : Nat
  deriving DecidableEq, Repr

/-- C struct `binary_clock_state_t`. -/
structure binary_clock_state_t where
  hours_tens : binary_value_t
  hours_units : binary_value_t
  minutes_tens : binary_value_t
  minutes_units : binary_value_t
  seconds_tens : binary_value_t
  seconds_units : binary_value_t
  timestamp : Int
  deriving DecidableEq

/-- The zero-initialised `binary_value_t` (C `= {0}`). -/
def binary_value_zero : binary_value_t :=
  { bit_count := 0, bits := fun _ => false, decimal_value := 0 }

/-- The zero-initialised `binary_clock_state_t` (C `= {0}`). -/
def binary_clock_state_zero : binary_clock_state_t :=
  { hours_tens := binary_value_zero, hours_units := binary_value_zero
    minutes_tens := binary_value_zero, minutes_units := binary_value_zero
    seconds_tens := binary_value_zero, seconds_units := binary_value_zero
    timestamp := 0 }

/-- C `binary_clock_to_binary(uint8_t value, uint8_t bit_count)`.

Validates `bit_count ∈ [1,6]` (otherwise returns the zero struct with
`bit_count = 0`), truncates `value` to the low `bit_count` bits, stores
the truncated value as `decimal_value`, and fills `bits` MSB-first; the
positions at and beyond `bit_count` are left `false`. -/
def binary_clock_to_binary (value bit_count : Nat) : binary_value_t :=
  if bit_count < 1 ∨ bit_count > 6 then
    binary_value_zero
  else
    let max_value := (1 <<< bit_count) - 1
    let value := if value > max_value then value &&& max_value else value
    { bit_count := bit_count
      decimal_value := value
      bits := fun i =>
        if i.val < bit_count then (value >>> (bit_count - 1 - i.val)) &&& 1 == 1
        else false }

/-- The accumulation loop of C `binary_clock_to_decimal`:
`for (i = 0; i < bit_count; i++) if (bits[i]) result |= 1 << (bit_count-1-i)`.
The array access `bits[i]` is only defined for `i < 6` (the C array has
6 cells); the claims about this function all assume `bit_count ≤ 6`,
where the guard below never fires. -/
def to_decimal_loop (bit_count : Nat) (bits : Fin 6 → Bool) : Nat :=
  (List.range bit_count).foldl
    (fun result i =>
      if h : i < 6 then
        if bits ⟨i, h⟩ then result ||| (1 <<< (bit_count - 1 - i)) else result
      else result) 0

/-- C `binary_clock_to_decimal(const binary_value_t* binary)`: returns 0
on `NULL` or `bit_count == 0`, otherwise sums the set bits MSB-first. -/
def binary_clock_to_decimal (binary : Option binary_value_t) : Nat :=
  match binary with
  | none => 0
  | some b => if b.bit_count = 0 then 0 else to_decimal_loop b.bit_count b.bits

/-- Round-trip over the whole valid domain, as a bounded decidable fact:
for `b ∈ [1,6]` and `v < 2^b`, decoding the encoding gives back `v`. -/
lemma to_decimal_to_binary_bounded :
    ∀ b < 7, 1 ≤ b → ∀ v < 2 ^ b,
      binary_clock_to_decimal (some (binary_clock_to_binary v b)) = v := by
  decide

/-- C1: For every bit count b in [1,6] and every value v in [0, 2^b),
converting v to binary and back to decimal returns v:
`binary_clock_to_decimal(binary_clock_to_binary(v, b)) == v`. -/
theorem roundtrip_to_binary_to_decimal (b v : Nat)
    (hb1 : 1 ≤ b) (hb6 : b ≤ 6) (hv : v < 2 ^ b) :
    binary_clock_to_decimal (some (binary_clock_to_binary v b)) = v :=
  to_decimal_to_binary_bounded b (by omega) hb1 v hv

/-- Witness for C1 at `b = 3`, `v = 5`. -/
theorem roundtrip_to_binary_to_decimal_witness :
    1 ≤ 3 ∧ 3 ≤ 6 ∧ 5 < 2 ^ 3 ∧
      binary_clock_to_decimal (some (binary_clock_to_binary 5 3)) = 5 :=
  ⟨by decide, by decide, by decide,
    roundtrip_to_binary_to_decimal 3 5 (by decide) (by decide) (by decide)⟩

/-- Truncation over the whole `uint8_t` domain, as a bounded decidable
fact: for `b ∈ [1,6]` and `2^b ≤ v < 256`, the conversion keeps
`bit_count = b` and stores `v mod 2^b`. -/
lemma to_binary_truncation_bounded :
    ∀ b < 7, 1 ≤ b → ∀ v < 256, 2 ^ b ≤ v →
      (binary_clock_to_binary v b).bit_count = b ∧
      (binary_clock_to_binary v b).decimal_value = v % 2 ^ b := by
  decide

/-- C3: For every bit count b in [1,6] and every value v (a `uint8_t`,
so v < 256) with v ≥ 2^b, `binary_clock_to_binary(v, b)` does not fail
but truncates: the returned `decimal_value` equals `v mod 2^b`. -/
theorem to_binary_truncates (b v : Nat)
    (hb1 : 1 ≤ b) (hb6 : b ≤ 6) (hv256 : v < 256) (hv : 2 ^ b ≤ v) :
    (binary_clock_to_binary v b).bit_count = b ∧
    (binary_clock_to_binary v b).decimal_value = v % 2 ^ b :=
  to_binary_truncation_bounded b (by omega) hb1 v hv256 hv

/-- Witness for C3 at `b = 3`, `v = 12`: `12 mod 8 = 4`. -/
theorem to_binary_truncates_witness :
    1 ≤ 3 ∧ 3 ≤ 6 ∧ 12 < 256 ∧ 2 ^ 3 ≤ 12 ∧
      (binary_clock_to_binary 12 3).bit_count = 3 ∧
      (binary_clock_to_binary 12 3).decimal_value = 12 % 2 ^ 3 :=
  ⟨by decide, by decide, by decide, by decide,
    (to_binary_truncates 3 12 (by decide) (by decide) (by decide) (by decide)).1,
    (to_binary_truncates 3 12 (by decide) (by decide) (by decide) (by decide)).2⟩

/-- C9: Every `binary_value_t` returned by `binary_clock_to_binary`
(with any inputs, including an invalid bit count) has `bits[i] = false`
for every position i with `bit_count ≤ i < 6`: the padding positions are
guaranteed zero. -/
theorem to_binary_padding_false (value bit_count : Nat) (i : Fin 6)
    (h : (binary_clock_to_binary value bit_count).bit_count ≤ i.val) :
    (binary_clock_to_binary value bit_count).bits i = false := by
  by_cases hbc : bit_count < 1 ∨ bit_count > 6
  · simp only [binary_clock_to_binary, if_pos hbc]
    rfl
  · simp only [binary_clock_to_binary, if_neg hbc] at h ⊢
    rw [if_neg (by omega)]

/-- Witness for C9 at `value = 5`, `bit_count = 3`, `i = 4`. -/
theorem to_binary_padding_false_witness :
    (binary_clock_to_binary 5 3).bit_count ≤ (4 : Fin 6).val ∧
      (binary_clock_to_binary 5 3).bits 4 = false :=
  ⟨by decide, to_binary_padding_false 5 3 4 (by decide)⟩

/-- Each step of the decoding loop ORs in a single power of two below
`2^bit_count`, so the accumulator stays below `2^bit_count`. -/
lemma to_decimal_loop_lt_two_pow (bc : Nat) (bits : Fin 6 → Bool) :
    to_decimal_loop bc bits < 2 ^ bc := by
  have key : ∀ l : List Nat, (∀ i ∈ l, i < bc) → ∀ acc, acc < 2 ^ bc →
      l.foldl
        (fun result i =>
          if h : i < 6 then
            if bits ⟨i, h⟩ then result ||| (1 <<< (bc - 1 - i)) else result
          else result) acc < 2 ^ bc := by
    intro l
    induction l with
    | nil => intro _ acc hacc; simpa using hacc
    | cons x xs ih =>
      intro hmem acc hacc
      simp only [List.foldl_cons]
      apply ih (fun i hi => hmem i (List.mem_cons_of_mem _ hi))
      by_cases hx : x < 6
      · rw [dif_pos hx]
        by_cases hbit : bits ⟨x, hx⟩
        · rw [if_pos hbit]
          have hx_bc : x < bc := hmem x (List.mem_cons_self _ _)
          have h1 : (1 <<< (bc - 1 - x)) < 2 ^ bc := by
            rw [Nat.shiftLeft_eq, one_mul]
            exact Nat.pow_lt_pow_right one_lt_two (by omega)
          exact Nat.bitwise_lt hacc h1
        · rw [if_neg hbit]; exact hacc
      · rw [dif_neg hx]; exact hacc
  exact key (List.range bc) (fun i hi => List.mem_range.mp hi) 0 (Nat.two_pow_pos bc)

/-- The decoding loop reads only the bit positions below `bit_count`:
two bit patterns agreeing there decode identically. -/
lemma to_decimal_loop_congr (bc : Nat) (bits bits' : Fin 6 → Bool)
    (h : ∀ i : Fin 6, i.val < bc → bits i = bits' i) :
    to_decimal_loop bc bits = to_decimal_loop bc bits' := by
  have key : ∀ l : List Nat, (∀ i ∈ l, i < bc) → ∀ acc : Nat,
      l.foldl
        (fun result i =>
          if hi : i < 6 then
            if bits ⟨i, hi⟩ then result ||| (1 <<< (bc - 1 - i)) else result
          else result) acc =
      l.foldl
        (fun result i =>
          if hi : i < 6 then
            if bits' ⟨i, hi⟩ then result ||| (1 <<< (bc - 1 - i)) else result
          else result) acc := by
    intro l
    induction l with
    | nil => intro _ _; rfl
    | cons x xs ih =>
      intro hmem acc
      have hx_bc : x < bc := hmem x (List.mem_cons_self _ _)
      simp only [List.foldl_cons]
      have hstep : ∀ hx : x < 6, bits ⟨x, hx⟩ = bits' ⟨x, hx⟩ :=
        fun hx => h ⟨x, hx⟩ hx_bc
      by_cases hx : x < 6
      · rw [dif_pos hx, dif_pos hx, hstep hx]
        exact ih (fun i hi => hmem i (List.mem_cons_of_mem _ hi)) _
      · rw [dif_neg hx, dif_neg hx]
        exact ih (fun i hi => hmem i (List.mem_cons_of_mem _ hi)) _
  exact key (List.range bc) (fun i hi => List.mem_range.mp hi) 0

/-- C10: For every `binary_value_t` d with `d.bit_count ≤ 6`,
`binary_clock_to_decimal(d)` is strictly less than `2^d.bit_count`, and
bits at positions at or beyond `bit_count` never contribute: any d' with
the same `bit_count` and the same bits below `bit_count` decodes to the
same value, whatever its high bits are. -/
theorem to_decimal_lt_two_pow (d : binary_value_t) (h : d.bit_count ≤ 6) :
    binary_clock_to_decimal (some d) < 2 ^ d.bit_count ∧
    ∀ d' : binary_value_t, d'.bit_count = d.bit_count →
      (∀ i : Fin 6, i.val < d.bit_count → d'.bits i = d.bits i) →
      binary_clock_to_decimal (some d') = binary_clock_to_decimal (some d) := by
  constructor
  · by_cases h0 : d.bit_count = 0
    · simp [binary_clock_to_decimal, h0]
    · simp only [binary_clock_to_decimal, if_neg h0]
      exact to_decimal_loop_lt_two_pow d.bit_count d.bits
  · intro d' hbc hbits
    by_cases h0 : d.bit_count = 0
    · simp [binary_clock_to_decimal, h0, hbc]
    · simp only [binary_clock_to_decimal, hbc, if_neg h0]
      exact to_decimal_loop_congr d.bit_count d'.bits d.bits
        (fun i hi => hbits i hi)

/-- Witness for C10 at `d = binary_clock_to_binary 5 3`. -/
theorem to_decimal_lt_two_pow_witness :
    (binary_clock_to_binary 5 3).bit_count ≤ 6 ∧
      binary_clock_to_decimal (some (binary_clock_to_binary 5 3)) <
        2 ^ (binary_clock_to_binary 5 3).bit_count :=
  ⟨by decide, (to_decimal_lt_two_pow (binary_clock_to_binary 5 3) (by decide)).1⟩

/-- C `binary_clock_state_from_time(const time_components_t* time_comp)`.

The C function reads the wall clock (`time(NULL)`) once on the success
path to stamp the result; that external read is passed in as `now`.
Null input or out-of-range components give the zero-initialised state
(whose `timestamp` is 0) before the clock is read. -/
def binary_clock_state_from_time (time_comp : Option time_components_t)
    (now : Int) : binary_clock_state_t :=
  match time_comp with
  | none => binary_clock_state_zero
  | some tc =>
    if tc.hours > 23 ∨ tc.minutes > 59 ∨ tc.seconds > 59 then
      binary_clock_state_zero
    else
      { hours_tens := binary_clock_to_binary (tc.hours / 10) 3
        hours_units := binary_clock_to_binary (tc.hours % 10) 4
        minutes_tens := binary_clock_to_binary (tc.minutes / 10) 3
        minutes_units := binary_clock_to_binary (tc.minutes % 10) 4
        seconds_tens := binary_clock_to_binary (tc.seconds / 10) 3
        seconds_units := binary_clock_to_binary (tc.seconds % 10) 4
        timestamp := now }

/-- C `binary_clock_get_current_time(void)`.

`now` models the `time(NULL)` result (`-1` = failure) and `local_time`
the `localtime` result (`none` = `NULL`); on either failure the C code
returns the all-zero `time_components_t`. -/
def binary_clock_get_current_time (now : Int)
    (local_time : Option time_components_t) : time_components_t :=
  if now = -1 then ⟨0, 0, 0⟩
  else
    match local_time with
    | none => ⟨0, 0, 0⟩
    | some t => t

/-- C `binary_clock_get_current_state(void)`: reads the current time;
on an all-zero reading it re-checks `time(NULL)` and returns the zero
state if the clock itself is failing, otherwise decomposes the reading. -/
def binary_clock_get_current_state (now : Int)
    (local_time : Option time_components_t) : binary_clock_state_t :=
  let current_time := binary_clock_get_current_time now local_time
  if current_time.hours = 0 ∧ current_time.minutes = 0 ∧
      current_time.seconds = 0 then
    if now = -1 then binary_clock_state_zero
    else binary_clock_state_from_time (some current_time) now
  else binary_clock_state_from_time (some current_time) now

/-- C2: Decomposing {hours=14, minutes=30, seconds=45} yields
hours_tens 1 (bits 001), hours_units 4 (bits 0100), minutes_tens 3
(bits 011), minutes_units 0 (bits 0000), seconds_tens 4 (bits 100),
seconds_units 5 (bits 0101), MSB-first over bit_count positions (the
padding positions beyond bit_count are false). -/
theorem state_from_time_14_30_45 (now : Int) :
    (binary_clock_state_from_time (some ⟨14, 30, 45⟩) now).hours_tens.decimal_value = 1 ∧
    (binary_clock_state_from_time (some ⟨14, 30, 45⟩) now).hours_tens.bit_count = 3 ∧
    List.ofFn (binary_clock_state_from_time (some ⟨14, 30, 45⟩) now).hours_tens.bits =
      [false, false, true, false, false, false] ∧
    (binary_clock_state_from_time (some ⟨14, 30, 45⟩) now).hours_units.decimal_value = 4 ∧
    (binary_clock_state_from_time (some ⟨14, 30, 45⟩) now).hours_units.bit_count = 4 ∧
    List.ofFn (binary_clock_state_from_time (some ⟨14, 30, 45⟩) now).hours_units.bits =
      [false, true, false, false, false, false] ∧
    (binary_clock_state_from_time (some ⟨14, 30, 45⟩) now).minutes_tens.decimal_value = 3 ∧
    (binary_clock_state_from_time (some ⟨14, 30, 45⟩) now).minutes_tens.bit_count = 3 ∧
    List.ofFn (binary_clock_state_from_time (some ⟨14, 30, 45⟩) now).minutes_tens.bits =
      [false, true, true, false, false, false] ∧
    (binary_clock_state_from_time (some ⟨14, 30, 45⟩) now).minutes_units.decimal_value = 0 ∧
    (binary_clock_state_from_time (some ⟨14, 30, 45⟩) now).minutes_units.bit_count = 4 ∧
    List.ofFn (binary_clock_state_from_time (some ⟨14, 30, 45⟩) now).minutes_units.bits =
      [false, false, false, false, false, false] ∧
    (binary_clock_state_from_time (some ⟨14, 30, 45⟩) now).seconds_tens.decimal_value = 4 ∧
    (binary_clock_state_from_time (some ⟨14, 30, 45⟩) now).seconds_tens.bit_count = 3 ∧
    List.ofFn (binary_clock_state_from_time (some ⟨14, 30, 45⟩) now).seconds_tens.bits =
      [true, false, false, false, false, false] ∧
    (binary_clock_state_from_time (some ⟨14, 30, 45⟩) now).seconds_units.decimal_value = 5 ∧
    (binary_clock_state_from_time (some ⟨14, 30, 45⟩) now).seconds_units.bit_count = 4 ∧
    List.ofFn (binary_clock_state_from_time (some ⟨14, 30, 45⟩) now).seconds_units.bits =
      [false, true, false, true, false, false] :=
  ⟨rfl, rfl, rfl, rfl, rfl, rfl, rfl, rfl, rfl, rfl, rfl, rfl, rfl, rfl,
    rfl, rfl, rfl, rfl⟩

/-- Witness for C2 at capture time 1: the hours tens digit is 1. -/
theorem state_from_time_14_30_45_witness :
    (binary_clock_state_from_time (some ⟨14, 30, 45⟩) 1).hours_tens.decimal_value = 1 :=
  (state_from_time_14_30_45 1).1

/-- Whether an (optional) time-components input is rejected by the C
validation in `binary_clock_state_from_time`. -/
def invalid_time_input (tc : Option time_components_t) : Prop :=
  tc = none ∨
    ∃ t, tc = some t ∧ (t.hours > 23 ∨ t.minutes > 59 ∨ t.seconds > 59)

/-- C4: `binary_clock_state_from_time` returns the sentinel state with
`timestamp = 0` exactly when the input pointer is null or a component is
out of range (hours > 23, minutes > 59 or seconds > 59) — provided the
wall-clock value stamped on success is not itself 0; in particular
inputs {24,0,0}, {0,60,0} and {0,0,60} all yield `timestamp = 0`. -/
theorem state_from_time_sentinel_iff (now : Int) (hnow : now ≠ 0) :
    (∀ tc : Option time_components_t,
      ((binary_clock_state_from_time tc now).timestamp = 0 ↔
        invalid_time_input tc)) ∧
    (binary_clock_state_from_time (some ⟨24, 0, 0⟩) now).timestamp = 0 ∧
    (binary_clock_state_from_time (some ⟨0, 60, 0⟩) now).timestamp = 0 ∧
    (binary_clock_state_from_time (some ⟨0, 0, 60⟩) now).timestamp = 0 := by
  refine ⟨?_, rfl, rfl, rfl⟩
  intro tc
  match tc with
  | none => simp [binary_clock_state_from_time, binary_clock_state_zero,
      invalid_time_input]
  | some t =>
    by_cases hv : t.hours > 23 ∨ t.minutes > 59 ∨ t.seconds > 59
    · simp only [binary_clock_state_from_time, if_pos hv]
      simp [binary_clock_state_zero, invalid_time_input]
      exact hv
    · simp only [binary_clock_state_from_time, if_neg hv]
      simp only [invalid_time_input]
      constructor
      · intro h; exact absurd h hnow
      · rintro (h | ⟨t', ht', hrange⟩)
        · exact absurd h (by simp)
        · cases Option.some.inj ht'
          exact absurd hrange hv

/-- Witness for C4 at `now = 123`. -/
theorem state_from_time_sentinel_iff_witness :
    (123 : Int) ≠ 0 ∧
      (binary_clock_state_from_time (some ⟨24, 0, 0⟩) 123).timestamp = 0 :=
  ⟨by decide, (state_from_time_sentinel_iff 123 (by decide)).2.1⟩

/-- C5: Whenever the clock source reports failure (`time(NULL)` returns
-1), `binary_clock_get_current_state` returns the sentinel state with
`timestamp = 0`: the all-zero time reading produced by the failed read
is detected and converted into the sentinel state rather than being
decomposed as midnight. -/
theorem get_current_state_clock_failure (now : Int)
    (local_time : Option time_components_t) (h : now = -1) :
    (binary_clock_get_current_state now local_time).timestamp = 0 ∧
    binary_clock_get_current_state now local_time = binary_clock_state_zero := by
  subst h
  exact ⟨rfl, rfl⟩

/-- Witness for C5 at `now = -1`, `local_time = none`. -/
theorem get_current_state_clock_failure_witness :
    (-1 : Int) = -1 ∧
      (binary_clock_get_current_state (-1) none).timestamp = 0 :=
  ⟨rfl, (get_current_state_clock_failure (-1) none rfl).1⟩

/-! ### Display registry (`src/binary_clock_display.c`)

Function pointers `binary_clock_display_fn_t` are modelled as `Nat`
codes wrapped in `Option` (`none` = `NULL`); `void* context` is an
`Option Nat` (`none` = `NULL`). -/

/-- C struct `display_entry_t`. -/
structure display_entry_t where
  display_fn : Option Nat
  context : Option Nat
  active : Bool
  id : Int
  deriving DecidableEq, Repr

/-- The registry: the static slot array `display_registry[16]` plus the
static counter `next_registration_id`. -/
structure display_registry_t where
  entries : List display_entry_t
  next_registration_id : Int
  deriving DecidableEq, Repr

/-- C `MAX_REGISTERED_DISPLAYS`. -/
def MAX_REGISTERED_DISPLAYS : Nat := 16

/-- A zero-initialised slot (C static initialisation). -/
def display_entry_init : display_entry_t :=
  { display_fn := none, context := none, active := false, id := 0 }

/-- The registry at program start: 16 inactive slots, counter 0. -/
def initial_display_registry : display_registry_t :=
  { entries := List.replicate MAX_REGISTERED_DISPLAYS display_entry_init
    next_registration_id := 0 }

/-- The slot scan of C `binary_clock_display_register`: find the first
inactive slot and populate it; `none` when every slot is active. -/
def register_scan (next_id : Int) (fn ctx : Option Nat) :
    List display_entry_t → Option (List display_entry_t)
  | [] => none
  | e :: rest =>
    if e.active then (register_scan next_id fn ctx rest).map (e :: ·)
    else
      some ({ display_fn := fn, context := ctx, active := true
              id := next_id } :: rest)

/-- C `binary_clock_display_register(display_fn, context)`: returns the
updated registry together with the returned id (`-1` on failure; the
registry is unchanged on failure). -/
def binary_clock_display_register (reg : display_registry_t)
    (display_fn ctx : Option Nat) : display_registry_t × Int :=
  match display_fn with
  | none => (reg, -1)
  | some _ =>
    match register_scan reg.next_registration_id display_fn ctx reg.entries with
    | some l =>
      ({ entries := l
         next_registration_id := reg.next_registration_id + 1 },
        reg.next_registration_id)
    | none => (reg, -1)

/-- The slot scan of C `binary_clock_display_unregister`: deactivate the
first active slot whose id matches; `none` when there is no match. -/
def unregister_scan (rid : Int) :
    List display_entry_t → Option (List display_entry_t)
  | [] => none
  | e :: rest =>
    if e.active ∧ e.id = rid then
      some ({ display_fn := none, context := none, active := false
              id := -1 } :: rest)
    else (unregister_scan rid rest).map (e :: ·)

/-- C `binary_clock_display_unregister(registration_id)`. -/
def binary_clock_display_unregister (reg : display_registry_t)
    (rid : Int) : display_registry_t × binary_clock_error_t :=
  if rid < 0 then (reg, .ERROR_INVALID_TIME)
  else
    match unregister_scan rid reg.entries with
    | some l =>
      ({ entries := l
         next_registration_id := reg.next_registration_id }, .SUCCESS)
    | none => (reg, .ERROR_INVALID_TIME)

/-- One renderer invocation performed by the dispatch loop: the function
pointer called, the state passed, and the slot's registered context. -/
structure display_call_event where
  fn : Nat
  state : binary_clock_state_t
  context : Option Nat
  deriving DecidableEq

/-- The dispatch loop of C `binary_clock_display_update_all_with_state`:
for every slot with `active && display_fn != NULL`, in slot order, call
`display_fn(state, context)`.  The model returns the trace of calls. -/
def dispatch_scan (s : binary_clock_state_t) :
    List display_entry_t → List display_call_event
  | [] => []
  | e :: rest =>
    if e.active then
      match e.display_fn with
      | some f => ⟨f, s, e.context⟩ :: dispatch_scan s rest
      | none => dispatch_scan s rest
    else dispatch_scan s rest

/-- C `binary_clock_display_update_all_with_state(state)`: a `NULL`
state is silently ignored (no renderer invoked). -/
def binary_clock_display_update_all_with_state (reg : display_registry_t)
    (state : Option binary_clock_state_t) : List display_call_event :=
  match state with
  | none => []
  | some s => dispatch_scan s reg.entries

lemma dispatch_scan_state (s : binary_clock_state_t) :
    ∀ l : List display_entry_t, ∀ ev ∈ dispatch_scan s l, ev.state = s := by
  intro l
  induction l with
  | nil => intro ev hev; simp [dispatch_scan] at hev
  | cons e rest ih =>
    intro ev hev
    by_cases ha : e.active
    · rcases hfn : e.display_fn with _ | f
      · rw [dispatch_scan, if_pos ha, hfn] at hev
        exact ih ev hev
      · rw [dispatch_scan, if_pos ha, hfn, List.mem_cons] at hev
        rcases hev with rfl | hev
        · rfl
        · exact ih ev hev
    · rw [dispatch_scan, if_neg ha] at hev
      exact ih ev hev

lemma dispatch_scan_length (s : binary_clock_state_t) :
    ∀ l : List display_entry_t,
      (dispatch_scan s l).length =
        (l.filter (fun e => e.active && e.display_fn.isSome)).length := by
  intro l
  induction l with
  | nil => rfl
  | cons e rest ih =>
    by_cases ha : e.active
    · rcases hfn : e.display_fn with _ | f
      · rw [dispatch_scan, if_pos ha, hfn]
        simp [List.filter_cons, ha, hfn, ih]
      · rw [dispatch_scan, if_pos ha, hfn]
        simp [List.filter_cons, ha, hfn, ih]
    · rw [dispatch_scan, if_neg ha]
      simp [List.filter_cons, ha, ih]

lemma dispatch_scan_count (s : binary_clock_state_t) (f : Nat)
    (c : Option Nat) :
    ∀ l : List display_entry_t,
      (dispatch_scan s l).count ⟨f, s, c⟩ =
        (l.filter
          (fun e => e.active && e.display_fn == some f && e.context == c)).length := by
  intro l
  induction l with
  | nil => rfl
  | cons e rest ih =>
    by_cases ha : e.active
    · rcases hfn : e.display_fn with _ | g
      · rw [dispatch_scan, if_pos ha, hfn]
        simp [List.filter_cons, ha, hfn, ih]
      · rw [dispatch_scan, if_pos ha, hfn]
        by_cases heq : g = f ∧ e.context = c
        · obtain ⟨rfl, hc⟩ := heq
          simp [List.count_cons, List.filter_cons, ha, hfn, hc, ih]
        · rw [List.count_cons]
          have hne : (⟨g, s, e.context⟩ : display_call_event) ≠ ⟨f, s, c⟩ := by
            intro hcontra
            injection hcontra with h1 h2 h3
            exact heq ⟨h1, h3⟩
          have hfne : ¬(e.active && e.display_fn == some f && e.context == c) = true := by
            simp only [ha, hfn, Bool.true_and, Bool.and_eq_true, beq_iff_eq,
              Option.some_inj]
            intro hcontra
            exact heq ⟨hcontra.1, hcontra.2⟩
          simp only [List.filter_cons, hfne, if_neg, ih, beq_iff_eq]
          rw [if_neg hne]
          simp
    · rw [dispatch_scan, if_neg ha]
      simp [List.filter_cons, ha, ih]

/-- C7: For every registry state and every non-null state pointer, one
dispatch call invokes each of the k active registrations exactly once
(k = the number of slots with `active && display_fn != NULL`), each with
the same `ClockState` value and its own registered context: every call
in the trace carries the dispatched state, the trace has exactly k
calls, and for every function/context pair the number of calls made to
it equals the number of active registrations of that pair. -/
theorem dispatch_invokes_each_once (reg : display_registry_t)
    (s : binary_clock_state_t) :
    (∀ ev ∈ binary_clock_display_update_all_with_state reg (some s),
      ev.state = s) ∧
    (binary_clock_display_update_all_with_state reg (some s)).length =
      (reg.entries.filter (fun e => e.active && e.display_fn.isSome)).length ∧
    (∀ (f : Nat) (c : Option Nat),
      (binary_clock_display_update_all_with_state reg (some s)).count
          ⟨f, s, c⟩ =
        (reg.entries.filter
          (fun e => e.active && e.display_fn == some f && e.context == c)).length) :=
  ⟨dispatch_scan_state s reg.entries,
    dispatch_scan_length s reg.entries,
    fun f c => dispatch_scan_count s f c reg.entries⟩

/-- Test driver: perform one `binary_clock_display_register` call per
list element (a non-null renderer code paired with a context), threading
the registry, and collect the returned ids in order. -/
def register_all (reg : display_registry_t) :
    List (Nat × Option Nat) → display_registry_t × List Int
  | [] => (reg, [])
  | p :: rest =>
    match binary_clock_display_register reg (some p.1) p.2 with
    | (reg', r) =>
      match register_all reg' rest with
      | (reg_final, rs) => (reg_final, r :: rs)

/-- C6: Starting from the empty registry, registering 17 renderers
(capacity 16) makes the first 16 calls succeed (non-negative ids) and
the 17th fail (-1); unregistering any one of the 16 then frees exactly
one slot: one further register succeeds and the next one fails again. -/
theorem register_capacity_and_reuse (ps : List (Nat × Option Nat))
    (hlen : ps.length = 17) :
    (∀ r ∈ (register_all initial_display_registry ps).2.take 16, 0 ≤ r) ∧
    (register_all initial_display_registry ps).2.getLast? = some (-1) ∧
    (∀ rid ∈ (register_all initial_display_registry ps).2.take 16,
      ∀ (g g' : Nat) (d d' : Option Nat),
        (binary_clock_display_unregister
            (register_all initial_display_registry ps).1 rid).2 =
          binary_clock_error_t.SUCCESS ∧
        0 ≤ (binary_clock_display_register
            (binary_clock_display_unregister
              (register_all initial_display_registry ps).1 rid).1
            (some g) d).2 ∧
        (binary_clock_display_register
            (binary_clock_display_register
              (binary_clock_display_unregister
                (register_all initial_display_registry ps).1 rid).1
              (some g) d).1
            (some g') d').2 = -1) := by
  obtain ⟨p0, ps, rfl⟩ := List.exists_of_length_succ ps hlen
  replace hlen : ps.length = 16 := by simpa using hlen
  obtain ⟨p1, ps, rfl⟩ := List.exists_of_length_succ ps hlen
  replace hlen : ps.length = 15 := by simpa using hlen
  obtain ⟨p2, ps, rfl⟩ := List.exists_of_length_succ ps hlen
  replace hlen : ps.length = 14 := by simpa using hlen
  obtain ⟨p3, ps, rfl⟩ := List.exists_of_length_succ ps hlen
  replace hlen : ps.length = 13 := by simpa using hlen
  obtain ⟨p4, ps, rfl⟩ := List.exists_of_length_succ ps hlen
  replace hlen : ps.length = 12 := by simpa using hlen
  obtain ⟨p5, ps, rfl⟩ := List.exists_of_length_succ ps hlen
  replace hlen : ps.length = 11 := by simpa using hlen
  obtain ⟨p6, ps, rfl⟩ := List.exists_of_length_succ ps hlen
  replace hlen : ps.length = 10 := by simpa using hlen
  obtain ⟨p7, ps, rfl⟩ := List.exists_of_length_succ ps hlen
  replace hlen : ps.length = 9 := by simpa using hlen
  obtain ⟨p8, ps, rfl⟩ := List.exists_of_length_succ ps hlen
  replace hlen : ps.length = 8 := by simpa using hlen
  obtain ⟨p9, ps, rfl⟩ := List.exists_of_length_succ ps hlen
  replace hlen : ps.length = 7 := by simpa using hlen
  obtain ⟨p10, ps, rfl⟩ := List.exists_of_length_succ ps hlen
  replace hlen : ps.length = 6 := by simpa using hlen
  obtain ⟨p11, ps, rfl⟩ := List.exists_of_length_succ ps hlen
  replace hlen : ps.length = 5 := by simpa using hlen
  obtain ⟨p12, ps, rfl⟩ := List.exists_of_length_succ ps hlen
  replace hlen : ps.length = 4 := by simpa using hlen
  obtain ⟨p13, ps, rfl⟩ := List.exists_of_length_succ ps hlen
  replace hlen : ps.length = 3 := by simpa using hlen
  obtain ⟨p14, ps, rfl⟩ := List.exists_of_length_succ ps hlen
  replace hlen : ps.length = 2 := by simpa using hlen
  obtain ⟨p15, ps, rfl⟩ := List.exists_of_length_succ ps hlen
  replace hlen : ps.length = 1 := by simpa using hlen
  obtain ⟨p16, ps, rfl⟩ := List.exists_of_length_succ ps hlen
  replace hlen : ps.length = 0 := by simpa using hlen
  obtain rfl := List.length_eq_zero.mp hlen
  have hfix :
      register_all initial_display_registry
        [p0, p1, p2, p3, p4, p5, p6, p7, p8, p9, p10, p11, p12, p13, p14,
          p15, p16] =
      ({ entries :=
          [⟨some p0.1, p0.2, true, 0⟩, ⟨some p1.1, p1.2, true, 1⟩,
            ⟨some p2.1, p2.2, true, 2⟩, ⟨some p3.1, p3.2, true, 3⟩,
            ⟨some p4.1, p4.2, true, 4⟩, ⟨some p5.1, p5.2, true, 5⟩,
            ⟨some p6.1, p6.2, true, 6⟩, ⟨some p7.1, p7.2, true, 7⟩,
            ⟨some p8.1, p8.2, true, 8⟩, ⟨some p9.1, p9.2, true, 9⟩,
            ⟨some p10.1, p10.2, true, 10⟩, ⟨some p11.1, p11.2, true, 11⟩,
            ⟨some p12.1, p12.2, true, 12⟩, ⟨some p13.1, p13.2, true, 13⟩,
            ⟨some p14.1, p14.2, true, 14⟩, ⟨some p15.1, p15.2, true, 15⟩]
         next_registration_id := 16 },
        [0, 1, 2, 3, 4, 5, 6, 7, 8, 9, 10, 11, 12, 13, 14, 15, -1]) := rfl
  rw [hfix]
  refine ⟨?_, rfl, ?_⟩
  · intro r hr
    have htake : ([(0 : Int), 1, 2, 3, 4, 5, 6, 7, 8, 9, 10, 11, 12, 13, 14,
        15, -1]).take 16 =
        [0, 1, 2, 3, 4, 5, 6, 7, 8, 9, 10, 11, 12, 13, 14, 15] := rfl
    rw [htake] at hr
    simp only [List.mem_cons, List.not_mem_nil, or_false] at hr
    rcases hr with rfl | rfl | rfl | rfl | rfl | rfl | rfl | rfl | rfl |
      rfl | rfl | rfl | rfl | rfl | rfl | rfl <;> decide
  · intro rid hrid g g' d d'
    have htake : ([(0 : Int), 1, 2, 3, 4, 5, 6, 7, 8, 9, 10, 11, 12, 13, 14,
        15, -1]).take 16 =
        [0, 1, 2, 3, 4, 5, 6, 7, 8, 9, 10, 11, 12, 13, 14, 15] := rfl
    rw [htake] at hrid
    simp only [List.mem_cons, List.not_mem_nil, or_false] at hrid
    rcases hrid with rfl | rfl | rfl | rfl | rfl | rfl | rfl | rfl | rfl |
      rfl | rfl | rfl | rfl | rfl | rfl | rfl <;>
      exact ⟨rfl, show (0 : Int) ≤ 16 by decide, rfl⟩

/-- Witness for C7: a registry holding one registration of renderer
code 5 with null context dispatches exactly one call to it. -/
theorem dispatch_invokes_each_once_witness :
    (binary_clock_display_update_all_with_state
        (binary_clock_display_register initial_display_registry
          (some 5) none).1
        (some binary_clock_state_zero)).length =
      ((binary_clock_display_register initial_display_registry
          (some 5) none).1.entries.filter
        (fun e => e.active && e.display_fn.isSome)).length ∧
    (binary_clock_display_update_all_with_state
        (binary_clock_display_register initial_display_registry
          (some 5) none).1
        (some binary_clock_state_zero)).count
        ⟨5, binary_clock_state_zero, none⟩ =
      ((binary_clock_display_register initial_display_registry
          (some 5) none).1.entries.filter
        (fun e => e.active && e.display_fn == some 5 &&
          e.context == none)).length :=
  ⟨(dispatch_invokes_each_once
      (binary_clock_display_register initial_display_registry (some 5) none).1
      binary_clock_state_zero).2.1,
    (dispatch_invokes_each_once
      (binary_clock_display_register initial_display_registry (some 5) none).1
      binary_clock_state_zero).2.2 5 none⟩

/-- One registry operation: a `binary_clock_display_register` call or a
`binary_clock_display_unregister` call. -/
inductive display_op where
  | register (fn ctx : Option Nat)
  | unregister (rid : Int)

/-- Run a sequence of registry operations from a starting registry,
collecting the ids returned by the successful register calls (the C
function returns `-1` exactly on failure) in call order. -/
def run_ops (reg : display_registry_t) :
    List display_op → display_registry_t × List Int
  | [] => (reg, [])
  | display_op.register fn ctx :: rest =>
    match binary_clock_display_register reg fn ctx with
    | (reg', r) =>
      match run_ops reg' rest with
      | (reg_final, rs) => (reg_final, if r = -1 then rs else r :: rs)
  | display_op.unregister rid :: rest =>
    run_ops (binary_clock_display_unregister reg rid).1 rest

/-- The ids of the currently-active slots, in slot order. -/
def active_ids (l : List display_entry_t) : List Int :=
  l.filterMap (fun e => if e.active then some e.id else none)

/-- A successful register scan adds exactly the new id to the active
ids (as a permutation: the new id takes the freed slot's position). -/
lemma register_scan_perm (next_id : Int) (fn ctx : Option Nat) :
    ∀ l l', register_scan next_id fn ctx l = some l' →
      (active_ids l').Perm (next_id :: active_ids l) := by
  intro l
  induction l with
  | nil => intro l' h; simp [register_scan] at h
  | cons e rest ih =>
    intro l' h
    by_cases ha : e.active
    · rw [register_scan, if_pos ha] at h
      cases hs : register_scan next_id fn ctx rest with
      | none => rw [hs] at h; simp at h
      | some rest' =>
        rw [hs] at h
        simp only [Option.map_some', Option.some_inj] at h
        subst h
        simp only [active_ids, List.filterMap_cons, ha, if_pos]
        exact ((ih rest' hs).cons e.id).trans (List.Perm.swap next_id e.id _)
    · rw [register_scan, if_neg ha] at h
      obtain rfl := Option.some_inj.mp h.symm
      simp [active_ids, List.filterMap_cons, ha]

/-- A successful unregister scan only removes from the active ids. -/
lemma unregister_scan_sublist (rid : Int) :
    ∀ l l', unregister_scan rid l = some l' →
      (active_ids l').Sublist (active_ids l) := by
  intro l
  induction l with
  | nil => intro l' h; simp [unregister_scan] at h
  | cons e rest ih =>
    intro l' h
    by_cases hc : e.active ∧ e.id = rid
    · rw [unregister_scan, if_pos hc] at h
      obtain rfl := Option.some_inj.mp h.symm
      have h1 : active_ids ((⟨none, none, false, -1⟩ : display_entry_t)
          :: rest) = active_ids rest := by
        simp [active_ids, List.filterMap_cons]
      have h2 : active_ids (e :: rest) = e.id :: active_ids rest := by
        simp [active_ids, List.filterMap_cons, hc.1]
      rw [h1, h2]
      exact List.sublist_cons_self _ _
    · rw [unregister_scan, if_neg hc] at h
      cases hs : unregister_scan rid rest with
      | none => rw [hs] at h; simp at h
      | some rest' =>
        rw [hs] at h
        simp only [Option.map_some', Option.some_inj] at h
        subst h
        by_cases ha : e.active
        · simp only [active_ids, List.filterMap_cons, ha, if_pos]
          exact (ih rest' hs).cons₂ e.id
        · simp only [active_ids, List.filterMap_cons, ha]
          exact ih rest' hs

/-- Registry invariant: all active ids are below the counter, active
ids are pairwise distinct, and the counter is non-negative. -/
def RegInv (reg : display_registry_t) : Prop :=
  (∀ r ∈ active_ids reg.entries, r < reg.next_registration_id) ∧
  (active_ids reg.entries).Nodup ∧
  0 ≤ reg.next_registration_id

/-- `binary_clock_display_unregister` never touches the counter. -/
lemma unregister_next_id (reg : display_registry_t) (rid : Int) :
    (binary_clock_display_unregister reg rid).1.next_registration_id =
      reg.next_registration_id := by
  unfold binary_clock_display_unregister
  split
  · rfl
  · cases hs : unregister_scan rid reg.entries <;> simp [hs]

/-- `binary_clock_display_unregister` preserves the invariant. -/
lemma unregister_inv (reg : display_registry_t) (rid : Int)
    (h : RegInv reg) :
    RegInv (binary_clock_display_unregister reg rid).1 := by
  unfold binary_clock_display_unregister
  split
  · exact h
  · cases hs : unregister_scan rid reg.entries with
    | none => simp only [hs]; exact h
    | some l' =>
      simp only [hs]
      have hsub := unregister_scan_sublist rid reg.entries l' hs
      exact ⟨fun r hr => h.1 r (hsub.subset hr),
        h.2.1.sublist hsub, h.2.2⟩

/-- Running any operation sequence from an invariant-satisfying registry
preserves the invariant, never decreases the counter, returns only ids
at or above the starting counter, and returns a strictly increasing
sequence of successful ids. -/
lemma run_ops_spec (ops : List display_op) :
    ∀ reg : display_registry_t, RegInv reg →
      RegInv (run_ops reg ops).1 ∧
      reg.next_registration_id ≤ (run_ops reg ops).1.next_registration_id ∧
      (∀ r ∈ (run_ops reg ops).2, reg.next_registration_id ≤ r) ∧
      ((run_ops reg ops).2).Pairwise (· < ·) := by
  induction ops with
  | nil =>
    intro reg hInv
    exact ⟨hInv, le_refl _, by simp [run_ops], by simp [run_ops]⟩
  | cons op rest ih =>
    intro reg hInv
    match op with
    | display_op.register fn ctx =>
      match fn with
      | none =>
        have hrw : run_ops reg (display_op.register none ctx :: rest) =
            ((run_ops reg rest).1, (run_ops reg rest).2) := by
          simp [run_ops, binary_clock_display_register]
        rw [hrw]
        exact ih reg hInv
      | some f =>
        cases hs : register_scan reg.next_registration_id (some f) ctx
            reg.entries with
        | none =>
          have hrw : run_ops reg (display_op.register (some f) ctx :: rest) =
              ((run_ops reg rest).1, (run_ops reg rest).2) := by
            simp [run_ops, binary_clock_display_register, hs]
          rw [hrw]
          exact ih reg hInv
        | some l' =>
          have hne : reg.next_registration_id ≠ -1 := by
            have := hInv.2.2; omega
          have hrw : run_ops reg (display_op.register (some f) ctx :: rest) =
              ((run_ops ⟨l', reg.next_registration_id + 1⟩ rest).1,
                reg.next_registration_id ::
                  (run_ops ⟨l', reg.next_registration_id + 1⟩ rest).2) := by
            simp [run_ops, binary_clock_display_register, hs, hne]
          have hperm := register_scan_perm reg.next_registration_id
            (some f) ctx reg.entries l' hs
          have hInv' : RegInv ⟨l', reg.next_registration_id + 1⟩ := by
            refine ⟨?_, ?_, ?_⟩
            · intro r hr
              rcases List.mem_cons.mp (hperm.subset hr) with rfl | hmem
              · exact lt_add_one _
              · exact lt_trans (hInv.1 r hmem) (lt_add_one _)
            · refine (hperm.nodup_iff).mpr ?_
              refine List.nodup_cons.mpr ⟨?_, hInv.2.1⟩
              intro hmem
              exact absurd (hInv.1 _ hmem) (lt_irrefl _)
            · exact le_trans hInv.2.2 (le_of_lt (lt_add_one _))
          obtain ⟨ih1, ih2, ih3, ih4⟩ := ih _ hInv'
          have hrw1 : (run_ops reg
              (display_op.register (some f) ctx :: rest)).1 =
              (run_ops ⟨l', reg.next_registration_id + 1⟩ rest).1 := by
            rw [hrw]
          have hrw2 : (run_ops reg
              (display_op.register (some f) ctx :: rest)).2 =
              reg.next_registration_id ::
                (run_ops ⟨l', reg.next_registration_id + 1⟩ rest).2 := by
            rw [hrw]
          rw [hrw1, hrw2]
          have h1 : (⟨l', reg.next_registration_id + 1⟩ :
              display_registry_t).next_registration_id =
              reg.next_registration_id + 1 := rfl
          rw [h1] at ih2
          refine ⟨ih1, by omega, ?_, ?_⟩
          · intro r hr
            rcases List.mem_cons.mp hr with rfl | hmem
            · exact le_refl _
            · have := ih3 r hmem
              rw [h1] at this
              omega
          · refine List.Pairwise.cons ?_ ih4
            intro r hr
            have := ih3 r hr
            rw [h1] at this
            omega
    | display_op.unregister rid =>
      have hrw : run_ops reg (display_op.unregister rid :: rest) =
          run_ops (binary_clock_display_unregister reg rid).1 rest := rfl
      rw [hrw]
      obtain ⟨ih1, ih2, ih3, ih4⟩ :=
        ih _ (unregister_inv reg rid hInv)
      rw [unregister_next_id reg rid] at ih2 ih3
      exact ⟨ih1, ih2, ih3, ih4⟩

/-- C8: Registration ids are assigned by a monotonically increasing
counter and never reused: for any sequence of register/unregister
operations from the empty registry, the successful register calls
return a strictly increasing sequence of ids (each id strictly greater
than every id returned earlier), the ids of the currently-active
registrations are pairwise distinct, and a further unregister neither
decrements nor recycles the counter. -/
theorem registration_ids_monotone_unique (ops : List display_op) :
    ((run_ops initial_display_registry ops).2).Pairwise (· < ·) ∧
    (active_ids (run_ops initial_display_registry ops).1.entries).Nodup ∧
    (∀ rid : Int,
      (binary_clock_display_unregister
          (run_ops initial_display_registry ops).1 rid).1.next_registration_id =
        (run_ops initial_display_registry ops).1.next_registration_id) := by
  have hInit : RegInv initial_display_registry :=
    ⟨by decide, by decide, by decide⟩
  obtain ⟨h1, _, _, h4⟩ := run_ops_spec ops initial_display_registry hInit
  exact ⟨h4, h1.2.1, fun rid => unregister_next_id _ rid⟩

/-- Witness for C8 on the sequence: register renderer 1, unregister
id 0, register renderer 2. -/
theorem registration_ids_monotone_unique_witness :
    ((run_ops initial_display_registry
        [display_op.register (some 1) none, display_op.unregister 0,
          display_op.register (some 2) none]).2).Pairwise (· < ·) ∧
    (active_ids (run_ops initial_display_registry
        [display_op.register (some 1) none, display_op.unregister 0,
          display_op.register (some 2) none]).1.entries).Nodup ∧
    (binary_clock_display_unregister
        (run_ops initial_display_registry
          [display_op.register (some 1) none, display_op.unregister 0,
            display_op.register (some 2) none]).1 0).1.next_registration_id =
      (run_ops initial_display_registry
        [display_op.register (some 1) none, display_op.unregister 0,
          display_op.register (some 2) none]).1.next_registration_id :=
  ⟨(registration_ids_monotone_unique
      [display_op.register (some 1) none, display_op.unregister 0,
        display_op.register (some 2) none]).1,
    (registration_ids_monotone_unique
      [display_op.register (some 1) none, display_op.unregister 0,
        display_op.register (some 2) none]).2.1,
    (registration_ids_monotone_unique
      [display_op.register (some 1) none, display_op.unregister 0,
        display_op.register (some 2) none]).2.2 0⟩

/-- Witness for C6 with 17 registrations of renderer code 0 and null
contexts, then unregistering id 3. -/
theorem register_capacity_and_reuse_witness :
    (List.replicate 17 ((0 : Nat), (none : Option Nat))).length = 17 ∧
    (3 : Int) ∈ (register_all initial_display_registry
      (List.replicate 17 ((0 : Nat), (none : Option Nat)))).2.take 16 ∧
    ((binary_clock_display_unregister
        (register_all initial_display_registry
          (List.replicate 17 ((0 : Nat), (none : Option Nat)))).1 3).2 =
      binary_clock_error_t.SUCCESS ∧
    0 ≤ (binary_clock_display_register
        (binary_clock_display_unregister
          (register_all initial_display_registry
            (List.replicate 17 ((0 : Nat), (none : Option Nat)))).1 3).1
        (some 7) none).2 ∧
    (binary_clock_display_register
        (binary_clock_display_register
          (binary_clock_display_unregister
            (register_all initial_display_registry
              (List.replicate 17 ((0 : Nat), (none : Option Nat)))).1 3).1
          (some 7) none).1
        (some 9) none).2 = -1) :=
  ⟨by decide, by decide,
    (register_capacity_and_reuse
        (List.replicate 17 ((0 : Nat), (none : Option Nat)))
        (by decide)).2.2 3 (by decide) 7 9 none none⟩
